import Mathlib

/-
  Verification development for the language-identification heuristic engine
  of the Translator repository (src/unnamed/part_004, class TranslationService).

  Strings are modelled as lists of Unicode code points (Nat).  JavaScript
  regular-expression character-class tests become existential scans over the
  code points; word-boundary patterns are modelled by explicit scanners that
  track the wordness of the previous character, mirroring the semantics of
  the JS `\b` assertion (a position is a boundary when exactly one of the two
  surrounding characters is a word character, out-of-string counting as
  non-word).
-/

namespace Translator

/-- A string, as the list of its Unicode code points. -/
abbrev Str := List Nat

/-- Code points of a Lean string literal. -/
def str (s : String) : Str := s.data.map Char.toNat

/-- JS regex word character `\w` = `[A-Za-z0-9_]`. -/
def isWordChar (c : Nat) : Bool :=
  (48 ≤ c && c ≤ 57) || (65 ≤ c && c ≤ 90) || (97 ≤ c && c ≤ 122) || c == 95

/-- JS regex whitespace `\s` (the ECMAScript WhiteSpace / LineTerminator set). -/
def isSpace (c : Nat) : Bool :=
  c == 9 || c == 10 || c == 11 || c == 12 || c == 13 || c == 32 || c == 160 ||
  c == 0x1680 || (0x2000 ≤ c && c ≤ 0x200A) || c == 0x2028 || c == 0x2029 ||
  c == 0x202F || c == 0x205F || c == 0x3000 || c == 0xFEFF

/-- Per-code-point model of `String.prototype.toLowerCase`.  Covers the
    mappings that can influence the detector: ASCII `A-Z`, Latin-1 capitals
    `À-Þ` (except `×`), `Ÿ`, capital sharp s, Kelvin sign, and the Cyrillic
    capitals `Ѐ-Џ` and `А-Я`.  Code points outside these sets are mapped to
    themselves; the detector's character classes contain no character that a
    remaining real-world lowercase mapping could produce (the length-changing
    mapping of `İ` is outside the scope of a per-code-point model). -/
def toLowerCP (c : Nat) : Nat :=
  if 65 ≤ c && c ≤ 90 then c + 32
  else if 0xC0 ≤ c && c ≤ 0xDE && !(c == 0xD7) then c + 32
  else if c == 0x178 then 0xFF
  else if c == 0x1E9E then 0xDF
  else if c == 0x212A then 0x6B
  else if 0x410 ≤ c && c ≤ 0x42F then c + 32
  else if 0x400 ≤ c && c ≤ 0x40F then c + 80
  else c

/-- `text.toLowerCase()`. -/
def lower (s : Str) : Str := s.map toLowerCP

/-- `haystack.includes(needle)`: substring containment. -/
def isSubstr (n : Str) : Str → Bool
  | [] => n.isEmpty
  | c :: t => n.isPrefixOf (c :: t) || isSubstr n t

/-- Splits a string into its maximal runs of word characters
    (the tokens that `\b\w+\b` style patterns operate on). -/
def wordRunsAux : Str → Str → List Str
  | [], acc => if acc.isEmpty then [] else [acc.reverse]
  | c :: rest, acc =>
    if isWordChar c then wordRunsAux rest (c :: acc)
    else if acc.isEmpty then wordRunsAux rest []
    else acc.reverse :: wordRunsAux rest []

def wordRuns (s : Str) : List Str := wordRunsAux s []

/-- Model of `/\b\w+SUF\b/.test s`: some maximal word run ends with `suf`
    and is strictly longer than `suf` (the `\w+` must consume at least one
    character before the literal suffix). -/
def runSuffix (suf : Str) (s : Str) : Bool :=
  (wordRuns s).any fun r => decide (suf.length + 1 ≤ r.length) && suf.isSuffixOf r

/-- After `\s+`, skip the whitespace run and require a word character
    (models the tail `\s+\w+` of a pattern; the closing `\b` after `\w+` is
    always satisfiable by extending `\w+` to the end of the word run). -/
def wordAfterWs : Str → Bool
  | [] => false
  | c :: rest => if isWordChar c then true else if isSpace c then wordAfterWs rest else false

/-- Model of `\s+\w+` at the current position: at least one whitespace
    character, then (after the whitespace run) a word character. -/
def wsThenWord : Str → Bool
  | [] => false
  | c :: rest => isSpace c && wordAfterWs rest

/-- Scanner for `/\bLIT\s+\w+\b/` where `LIT` starts with a word character:
    `prevW` is the wordness of the previous character (false at the start). -/
def scanLeadGo (lit : Str) (prevW : Bool) : Str → Bool
  | [] => false
  | c :: rest =>
    (!prevW && lit.isPrefixOf (c :: rest) && wsThenWord (List.drop lit.length (c :: rest)))
    || scanLeadGo lit (isWordChar c) rest

def scanLead (lit : Str) (s : Str) : Bool := scanLeadGo lit false s

/-- The position after a literal is a `\b` boundary (the literal ends with a
    word character), i.e. the next character is absent or not a word character. -/
def tailBnd : Str → Bool
  | [] => true
  | c :: _ => !isWordChar c

/-- After skipping a whitespace run, the literal `l2` followed by a boundary. -/
def wsSkipLit (l2 : Str) : Str → Bool
  | [] => false
  | c :: rest =>
    if isSpace c then wsSkipLit l2 rest
    else l2.isPrefixOf (c :: rest) && tailBnd (List.drop l2.length (c :: rest))

/-- Model of `\s+L2\b` at the current position (`l2` starts with a word
    character, so it can only match at the end of the whitespace run). -/
def wsThenLit (l2 : Str) : Str → Bool
  | [] => false
  | c :: rest => isSpace c && wsSkipLit l2 rest

/-- Scanner for `/\bL1\s+L2\b/` where both literals start and end with word
    characters. -/
def scanPairGo (l1 l2 : Str) (prevW : Bool) : Str → Bool
  | [] => false
  | c :: rest =>
    (!prevW && l1.isPrefixOf (c :: rest) && wsThenLit l2 (List.drop l1.length (c :: rest)))
    || scanPairGo l1 l2 (isWordChar c) rest

def scanPair (l1 l2 : Str) (s : Str) : Bool := scanPairGo l1 l2 false s

def isWordO : Option Nat → Bool
  | none => false
  | some c => isWordChar c

/-- One alternative of a `/\b(a1|a2|...)\b/` pattern matches at the current
    position: the alternative is a literal prefix here, with a JS `\b`
    boundary before its first and after its last character (a boundary holds
    when the wordness of the two surrounding characters differs, a missing
    character counting as non-word). -/
def altHere (a : Str) (prevW : Bool) (s : Str) : Bool :=
  a.isPrefixOf s && (prevW != isWordO a.head?) &&
  (isWordO a.getLast? != isWordO (List.drop a.length s).head?)

def scanBGo (alts : List Str) (prevW : Bool) : Str → Bool
  | [] => false
  | c :: rest => alts.any (fun a => altHere a prevW (c :: rest)) || scanBGo alts (isWordChar c) rest

/-- Model of `/\b(a1|a2|...)\b/.test s`. -/
def scanBounded (alts : List Str) (s : Str) : Bool := scanBGo alts false s

/-- The romanized-Hindi vocabulary of `isTransliteratedHindi`
    (src/unnamed/part_004, lines 125-147), tested by substring containment
    against the lowercased text. -/
def hindiWords : List Str :=
  [str "namaste", str "namaskar", str "adaab", str "sat sri akal",
   str "aap", str "tum", str "main", str "hum", str "kya", str "kaise",
   str "kaun", str "kahan", str "kab", str "kyun",
   str "hai", str "hain", str "tha", str "thi", str "the",
   str "hoga", str "hogi", str "honge",
   str "accha", str "theek", str "sahi", str "galat", str "bura",
   str "sundar", str "khushi", str "dukh",
   str "paani", str "khana", str "ghar", str "school", str "kaam",
   str "paise", str "rupaye",
   str "mata", str "pita", str "bhai", str "behen", str "beta",
   str "beti", str "dost", str "sahab",
   str "dhanyawad", str "shukriya", str "maaf", str "sorr" ++ str "y",
   str "please", str "kripaya",
   str "haan", str "nahi", str "bilkul", str "shayad", str "zaroor",
   str "kabhi", str "hamesha",
   str "ek", str "do", str "teen", str "char", str "paanch", str "chhe",
   str "saat", str "aath", str "nau", str "das",
   str "subah", str "dopahar", str "shaam", str "raat", str "kal",
   str "aaj", str "parso",
   str "kya haal", str "kaise ho", str "kya kar rahe", str "kahan ja rahe",
   str "kitna paisa",
   str "bahut accha", str "bahut bura", str "thoda sa", str "zyada",
   str "kam", str "poora",
   str "jana", str "aana", str "khana", str "peena", str "sona",
   str "uthna", str "baithna", str "khada",
   str "dekhna", str "sunna", str "bolna", str "kehna", str "samjhna",
   str "padhna", str "likhna",
   str "khelna", str "hasna", str "rona", str "gaana", str "naachna",
   str "daudna", str "chalna"]

/-- The thirteen grammatical-pattern regexes of `isTransliteratedHindi`
    (src/unnamed/part_004, lines 157-171), applied to the lowercased text:
    three word-suffix patterns, six particle-then-word patterns and four
    two-word collocations. -/
def hindiPatternsHit (lt : Str) : Bool :=
  runSuffix (str "ji") lt || runSuffix (str "wala") lt || runSuffix (str "kar") lt ||
  scanLead (str "ke") lt || scanLead (str "ki") lt || scanLead (str "ka") lt ||
  scanLead (str "mein") lt || scanLead (str "se") lt || scanLead (str "ko") lt ||
  scanPair (str "rahe") (str "hain") lt || scanPair (str "raha") (str "hai") lt ||
  scanPair (str "ho") (str "gaya") lt || scanPair (str "kar") (str "diya") lt

/-- The phonetic digraph / vowel-cluster fragments of `isTransliteratedHindi`
    (src/unnamed/part_004, lines 180-183). -/
def devSounds : List Str :=
  [str "bh", str "ch", str "dh", str "gh", str "jh", str "kh", str "ph",
   str "rh", str "sh", str "th", str "zh",
   str "aa", str "ee", str "oo", str "ai", str "au", str "ri", str "ru"]

/-- Number of distinct phonetic fragments occurring in the lowercased text
    (presence test per fragment, not frequency). -/
def soundCount (lt : Str) : Nat := (devSounds.filter fun f => isSubstr f lt).length

/-- `isTransliteratedHindi` (src/unnamed/part_004, lines 121-194):
    vocabulary substring check, then grammatical patterns, then the
    phonetic-density threshold of at least two distinct fragments. -/
def isTransliteratedHindi (s : Str) : Bool :=
  hindiWords.any (fun w => isSubstr w (lower s)) ||
  hindiPatternsHit (lower s) ||
  decide (2 ≤ soundCount (lower s))

/-- The alternatives of the English function-word regex of `isLikelyEnglish`
    (src/unnamed/part_004, line 116); the `/i` flag is modelled by matching
    against the lowercased text. -/
def englishWords : List Str :=
  [str "the", str "and", str "or", str "but", str "in", str "on", str "at",
   str "to", str "for", str "of", str "with", str "by", str "from", str "up",
   str "about", str "into", str "over", str "after", str "is", str "are",
   str "was", str "were", str "be", str "been", str "being", str "have",
   str "has", str "had", str "do", str "does", str "did", str "will",
   str "would", str "could", str "should", str "may", str "might", str "can",
   str "must", str "shall", str "this", str "that", str "these", str "those",
   str "i", str "you", str "he", str "she", str "it", str "we", str "they",
   str "me", str "him", str "her", str "us", str "them", str "my", str "your",
   str "his", str "her", str "its", str "our", str "their", str "a", str "an",
   str "not", str "no", str "yes", str "hello", str "hi", str "thank",
   str "thanks", str "please", str "sorr" ++ str "y", str "excuse", str "welcome"]

/-- `isLikelyEnglish` (src/unnamed/part_004, lines 115-119): the
    case-insensitive word-boundary match of common English function words. -/
def isLikelyEnglish (s : Str) : Bool := scanBounded englishWords (lower s)

/-- `/[अ-ह]/` : Devanagari letters U+0905 to U+0939. -/
def devLet (c : Nat) : Bool := 0x905 ≤ c && c ≤ 0x939

/-- `/[०-९]/` : Devanagari digits U+0966 to U+096F. -/
def devDig (c : Nat) : Bool := 0x966 ≤ c && c ≤ 0x96F

/-- `/[ا-ي]/` : Arabic letters U+0627 to U+064A. -/
def arLet (c : Nat) : Bool := 0x627 ≤ c && c ≤ 0x64A

/-- `/[٠-٩]/` : Arabic-Indic digits U+0660 to U+0669. -/
def arDig (c : Nat) : Bool := 0x660 ≤ c && c ≤ 0x669

/-- `/[а-я]/` : Cyrillic lowercase U+0430 to U+044F. -/
def cyrLow (c : Nat) : Bool := 0x430 ≤ c && c ≤ 0x44F

/-- `/[А-Я]/` : Cyrillic capitals U+0410 to U+042F. -/
def cyrUp (c : Nat) : Bool := 0x410 ≤ c && c ≤ 0x42F

/-- `/[ひらがなカタカナ一-龯]/` : the seven literal kana characters
    ひ ら が な カ タ ナ plus the CJK ideograph range U+4E00 to U+9FAF
    (the class spells the script names, it does not contain kana ranges). -/
def jaCls (c : Nat) : Bool :=
  c == 0x3072 || c == 0x3089 || c == 0x304C || c == 0x306A ||
  c == 0x30AB || c == 0x30BF || c == 0x30CA || (0x4E00 ≤ c && c ≤ 0x9FAF)

/-- `/[가-힣]/` : Hangul syllables U+AC00 to U+D7A3. -/
def koCls (c : Nat) : Bool := 0xAC00 ≤ c && c ≤ 0xD7A3

/-- `/[一-龯]/` : CJK ideographs U+4E00 to U+9FAF. -/
def zhCls (c : Nat) : Bool := 0x4E00 ≤ c && c ≤ 0x9FAF

/-- `/[¡¿ñáéíóúü]/`. -/
def esDia (c : Nat) : Bool :=
  c == 0xA1 || c == 0xBF || c == 0xF1 || c == 0xE1 || c == 0xE9 ||
  c == 0xED || c == 0xF3 || c == 0xFA || c == 0xFC

/-- `/[àâäéèêëîïôöùûüÿç]/`. -/
def frDia (c : Nat) : Bool :=
  c == 0xE0 || c == 0xE2 || c == 0xE4 || c == 0xE9 || c == 0xE8 ||
  c == 0xEA || c == 0xEB || c == 0xEE || c == 0xEF || c == 0xF4 ||
  c == 0xF6 || c == 0xF9 || c == 0xFB || c == 0xFC || c == 0xFF || c == 0xE7

/-- `/[äöüß]/`. -/
def deDia (c : Nat) : Bool := c == 0xE4 || c == 0xF6 || c == 0xFC || c == 0xDF

/-- `/[àèéìíîòóù]/`. -/
def itDia (c : Nat) : Bool :=
  c == 0xE0 || c == 0xE8 || c == 0xE9 || c == 0xEC || c == 0xED ||
  c == 0xEE || c == 0xF2 || c == 0xF3 || c == 0xF9

/-- `/[ãõáéíóúâêîôûàç]/`. -/
def ptDia (c : Nat) : Bool :=
  c == 0xE3 || c == 0xF5 || c == 0xE1 || c == 0xE9 || c == 0xED ||
  c == 0xF3 || c == 0xFA || c == 0xE2 || c == 0xEA || c == 0xEE ||
  c == 0xF4 || c == 0xFB || c == 0xE0 || c == 0xE7

/-- Spanish function-word alternatives (src line 236). -/
def esWords : List Str :=
  [str "el", str "la", str "los", str "las", str "un", str "una", str "de",
   str "del", str "en", str "con", str "por", str "para", str "que", str "es",
   str "son", str "está", str "están", str "hola", str "gracias", str "por favor"]

/-- French function-word alternatives (src line 242); the apostrophe of the
    politeness phrase is code point 39. -/
def frWords : List Str :=
  [str "le", str "la", str "les", str "un", str "une", str "de", str "du",
   str "des", str "et", str "ou", str "avec", str "pour", str "que", str "est",
   str "sont", str "bonjour", str "merci",
   str "s" ++ [39] ++ str "il vous plaît"]

/-- German function-word alternatives (src line 248). -/
def deWords : List Str :=
  [str "der", str "die", str "das", str "ein", str "eine", str "und",
   str "oder", str "mit", str "für", str "dass", str "ist", str "sind",
   str "hallo", str "danke", str "bitte"]

/-- Italian function-word alternatives (src line 254). -/
def itWords : List Str :=
  [str "il", str "la", str "lo", str "gli", str "le", str "un", str "una",
   str "di", str "del", str "della", str "e", str "o", str "con", str "per",
   str "che", str "è", str "sono", str "ciao", str "grazie", str "prego"]

/-- Portuguese function-word alternatives (src line 260). -/
def ptWords : List Str :=
  [str "o", str "a", str "os", str "as", str "um", str "uma", str "de",
   str "do", str "da", str "dos", str "das", str "e", str "ou", str "com",
   str "para", str "que", str "é", str "são", str "olá", str "obrigado",
   str "por favor"]

/-- The `Language` value shape: `{ code, name }`. -/
structure Language where
  code : Str
  name : Str
deriving DecidableEq

/-- Modelled from the spec: the static language catalog
    `src/data/languages.ts` imported by the translation service is not part
    of the provided sources (only its importers are); following the spec it
    exposes at minimum the codes auto, en, hi, es, fr, de, it, pt, ru, ar,
    ja, ko, zh, each with a display name and exactly one entry per code,
    including the `auto` pseudo-language and the English default. -/
def languages : List Language :=
  [⟨str "auto", str "Auto-detect"⟩, ⟨str "en", str "English"⟩,
   ⟨str "hi", str "Hindi"⟩, ⟨str "es", str "Spanish"⟩,
   ⟨str "fr", str "French"⟩, ⟨str "de", str "German"⟩,
   ⟨str "it", str "Italian"⟩, ⟨str "pt", str "Portuguese"⟩,
   ⟨str "ru", str "Russian"⟩, ⟨str "ar", str "Arabic"⟩,
   ⟨str "ja", str "Japanese"⟩, ⟨str "ko", str "Korean"⟩,
   ⟨str "zh", str "Chinese"⟩]

/-- `languages.find(l => l.code === c)`; the source's non-null assertion `!`
    is modelled by the `Option`. -/
def findLang (c : Str) : Option Language := languages.find? fun l => l.code == c

def langEn : Language := ⟨str "en", str "English"⟩
def langHi : Language := ⟨str "hi", str "Hindi"⟩
def langJa : Language := ⟨str "ja", str "Japanese"⟩
def langZh : Language := ⟨str "zh", str "Chinese"⟩

/-- `heuristicLanguageDetection` (src/unnamed/part_004, lines 196-266):
    transliterated-Hindi tier, then the script-range tier (Devanagari,
    Arabic, Cyrillic, the Japanese class, Hangul, CJK), then the five
    Latin-script diacritic / function-word tiers, else the English default. -/
def heuristicLanguageDetection (s : Str) : Option Language :=
  if isTransliteratedHindi s then findLang (str "hi")
  else if s.any devLet || s.any devDig then findLang (str "hi")
  else if s.any arLet || s.any arDig then findLang (str "ar")
  else if (lower s).any cyrLow || s.any cyrUp then findLang (str "ru")
  else if s.any jaCls then findLang (str "ja")
  else if s.any koCls then findLang (str "ko")
  else if s.any zhCls then findLang (str "zh")
  else if (lower s).any esDia || scanBounded esWords (lower s) then findLang (str "es")
  else if (lower s).any frDia || scanBounded frWords (lower s) then findLang (str "fr")
  else if (lower s).any deDia || scanBounded deWords (lower s) then findLang (str "de")
  else if (lower s).any itDia || scanBounded itWords (lower s) then findLang (str "it")
  else if (lower s).any ptDia || scanBounded ptWords (lower s) then findLang (str "pt")
  else findLang (str "en")

/-- Outcome of the remote detection call of `detectLanguage`: non-OK HTTP
    response, OK response with the recognized payload shape, OK response
    with any other payload, or a thrown transport / parse error. -/
inductive RemoteOutcome
  | notOk
  | okGood
  | okBad
  | threw
deriving DecidableEq

/-- `detectLanguage` (src/unnamed/part_004, lines 82-113), with the remote
    call's outcome made an explicit parameter.  The second component records
    whether the remote detection API was consulted.  When the heuristic
    result's code is not the default or the text independently looks
    English, the heuristic result is returned without a remote call;
    otherwise the remote call is made and every outcome branch returns the
    heuristic result (the thrown-error branch recomputes it). -/
def detectLanguageRun (s : Str) (r : RemoteOutcome) : Option Language × Bool :=
  match heuristicLanguageDetection s with
  | none => (none, false)
  | some h =>
    if (h.code != str "en") || isLikelyEnglish s then (some h, false)
    else
      match r with
      | .notOk => (some h, true)
      | .okGood => (some h, true)
      | .okBad => (some h, true)
      | .threw => (heuristicLanguageDetection s, true)

/-- The `Language` that `detectLanguage` resolves to. -/
def detectLanguage (s : Str) (r : RemoteOutcome) : Option Language :=
  (detectLanguageRun s r).1

/-- Membership of the Devanagari Unicode block U+0900 to U+097F. -/
def inDevBlock (c : Nat) : Bool := 0x900 ≤ c && c ≤ 0x97F

/-- The thirteen catalog codes the spec requires at minimum. -/
def requiredCodes : List Str :=
  [str "auto", str "en", str "hi", str "es", str "fr", str "de", str "it",
   str "pt", str "ru", str "ar", str "ja", str "ko", str "zh"]

/- ------------------------------------------------------------------ -/
/- Helper lemmas                                                       -/
/- ------------------------------------------------------------------ -/

theorem prefixOf_mem : ∀ (n h : Str), n.isPrefixOf h = true → ∀ x ∈ n, x ∈ h := by
  intro n
  induction n with
  | nil => intro h _ x hx; cases hx
  | cons a as ih =>
    intro h hp x hx
    cases h with
    | nil => simp [List.isPrefixOf] at hp
    | cons b bs =>
      simp only [List.isPrefixOf, Bool.and_eq_true, beq_iff_eq] at hp
      obtain ⟨rfl, hp2⟩ := hp
      rcases List.mem_cons.mp hx with rfl | hx2
      · exact List.mem_cons_self _ _
      · exact List.mem_cons_of_mem _ (ih bs hp2 x hx2)

theorem substr_mem : ∀ (n h : Str), isSubstr n h = true → ∀ x ∈ n, x ∈ h := by
  intro n h
  induction h with
  | nil =>
    intro hs x hx
    cases n with
    | nil => cases hx
    | cons a as => simp [isSubstr, List.isEmpty] at hs
  | cons c t ih =>
    intro hs x hx
    simp only [isSubstr, Bool.or_eq_true] at hs
    rcases hs with hp | hrec
    · exact prefixOf_mem n (c :: t) hp x hx
    · exact List.mem_cons_of_mem _ (ih hrec x hx)

theorem substr_false_of_missing (n s : Str) (p : Nat → Bool)
    (hn : n.any p = true) (hs : ∀ c ∈ s, p c = false) : isSubstr n s = false := by
  rcases List.any_eq_true.mp hn with ⟨x, hxn, hxw⟩
  cases hsub : isSubstr n s with
  | false => rfl
  | true => exact absurd hxw (by simp [hs x (substr_mem n s hsub x hxn)])

theorem wordRunsAux_nil (s : Str) (hw : ∀ c ∈ s, isWordChar c = false) :
    wordRunsAux s [] = [] := by
  induction s with
  | nil => rfl
  | cons c rest ih =>
    have hc := hw c (List.mem_cons_self _ _)
    simp only [wordRunsAux, hc, List.isEmpty, if_false, if_true, Bool.false_eq_true]
    exact ih fun x hx => hw x (List.mem_cons_of_mem _ hx)

theorem no_word_no_runSuffix (suf s : Str) (hw : ∀ c ∈ s, isWordChar c = false) :
    runSuffix suf s = false := by
  unfold runSuffix wordRuns
  rw [wordRunsAux_nil s hw]
  rfl

theorem scanLeadGo_mem : ∀ (lit : Str) (b : Bool) (s : Str),
    scanLeadGo lit b s = true → ∀ x ∈ lit, x ∈ s := by
  intro lit b s
  induction s generalizing b with
  | nil => intro h; simp [scanLeadGo] at h
  | cons c rest ih =>
    intro h x hx
    simp only [scanLeadGo, Bool.or_eq_true, Bool.and_eq_true] at h
    rcases h with ⟨⟨_, hp⟩, _⟩ | hrec
    · exact prefixOf_mem lit (c :: rest) hp x hx
    · exact List.mem_cons_of_mem _ (ih (isWordChar c) hrec x hx)

theorem scanLead_false_of_missing (lit s : Str) (p : Nat → Bool)
    (hn : lit.any p = true) (hs : ∀ c ∈ s, p c = false) : scanLead lit s = false := by
  rcases List.any_eq_true.mp hn with ⟨x, hxn, hxw⟩
  cases hsc : scanLead lit s with
  | false => rfl
  | true => exact absurd hxw (by simp [hs x (scanLeadGo_mem lit false s hsc x hxn)])

theorem scanPairGo_mem : ∀ (l1 l2 : Str) (b : Bool) (s : Str),
    scanPairGo l1 l2 b s = true → ∀ x ∈ l1, x ∈ s := by
  intro l1 l2 b s
  induction s generalizing b with
  | nil => intro h; simp [scanPairGo] at h
  | cons c rest ih =>
    intro h x hx
    simp only [scanPairGo, Bool.or_eq_true, Bool.and_eq_true] at h
    rcases h with ⟨⟨_, hp⟩, _⟩ | hrec
    · exact prefixOf_mem l1 (c :: rest) hp x hx
    · exact List.mem_cons_of_mem _ (ih (isWordChar c) hrec x hx)

theorem scanPair_false_of_missing (l1 l2 s : Str) (p : Nat → Bool)
    (hn : l1.any p = true) (hs : ∀ c ∈ s, p c = false) : scanPair l1 l2 s = false := by
  rcases List.any_eq_true.mp hn with ⟨x, hxn, hxw⟩
  cases hsc : scanPair l1 l2 s with
  | false => rfl
  | true => exact absurd hxw (by simp [hs x (scanPairGo_mem l1 l2 false s hsc x hxn)])

theorem scanBGo_mem : ∀ (alts : List Str) (b : Bool) (s : Str),
    scanBGo alts b s = true → ∃ a ∈ alts, ∀ x ∈ a, x ∈ s := by
  intro alts b s
  induction s generalizing b with
  | nil => intro h; simp [scanBGo] at h
  | cons c rest ih =>
    intro h
    simp only [scanBGo, Bool.or_eq_true] at h
    rcases h with hhit | hrec
    · rcases List.any_eq_true.mp hhit with ⟨a, ha, haH⟩
      simp only [altHere, Bool.and_eq_true] at haH
      exact ⟨a, ha, fun x hx => prefixOf_mem a (c :: rest) haH.1.1 x hx⟩
    · rcases ih (isWordChar c) hrec with ⟨a, ha, hmem⟩
      exact ⟨a, ha, fun x hx => List.mem_cons_of_mem _ (hmem x hx)⟩

theorem scanB_false_of_missing (alts : List Str) (s : Str) (p : Nat → Bool)
    (hA : alts.all (fun a => a.any p) = true)
    (hs : ∀ c ∈ s, p c = false) : scanBounded alts s = false := by
  cases hsc : scanBounded alts s with
  | false => rfl
  | true =>
    rcases scanBGo_mem alts false s hsc with ⟨a, ha, hmem⟩
    rcases List.any_eq_true.mp (List.all_eq_true.mp hA a ha) with ⟨x, hxa, hxw⟩
    exact absurd hxw (by simp [hs x (hmem x hxa)])

theorem lower_id (s : Str) (h : ∀ c ∈ s, toLowerCP c = c) : lower s = s :=
  (List.map_congr_left h).trans (List.map_id s)

theorem any_false_of_all_not {α : Type} (l : List α) (p : α → Bool)
    (h : l.all (fun x => !(p x)) = true) : l.any p = false := by
  rw [List.any_eq_false]
  intro x hx
  have := List.all_eq_true.mp h x hx
  simpa using this

theorem toLowerCP_fix (c : Nat) (h1 : ¬(65 ≤ c ∧ c ≤ 90))
    (h2 : ¬(0xC0 ≤ c ∧ c ≤ 0xDE)) (h3 : c ≠ 0x178) (h4 : c ≠ 0x1E9E)
    (h5 : c ≠ 0x212A) (h6 : ¬(0x400 ≤ c ∧ c ≤ 0x42F)) : toLowerCP c = c := by
  unfold toLowerCP
  repeat' split
  any_goals rfl
  all_goals rename_i hcond
  all_goals simp only [Bool.and_eq_true, Bool.not_eq_true', beq_iff_eq,
    beq_eq_false_iff_ne, decide_eq_true_eq, ne_eq] at hcond
  all_goals omega

theorem space_char (c : Nat) (h : isSpace c = true) :
    isWordChar c = false ∧ toLowerCP c = c ∧ devLet c = false ∧ devDig c = false ∧
    arLet c = false ∧ arDig c = false ∧ cyrLow c = false ∧ cyrUp c = false ∧
    jaCls c = false ∧ koCls c = false ∧ zhCls c = false ∧ esDia c = false ∧
    frDia c = false ∧ deDia c = false ∧ itDia c = false ∧ ptDia c = false := by
  simp only [isSpace, Bool.or_eq_true, Bool.and_eq_true, beq_iff_eq,
    decide_eq_true_eq] at h
  refine ⟨?_, toLowerCP_fix c (by omega) (by omega) (by omega) (by omega)
    (by omega) (by omega), ?_, ?_, ?_, ?_, ?_, ?_, ?_, ?_, ?_, ?_, ?_, ?_, ?_, ?_⟩
  all_goals
    by_contra hc
    simp only [isWordChar, devLet, devDig, arLet, arDig, cyrLow, cyrUp, jaCls,
      koCls, zhCls, esDia, frDia, deDia, itDia, ptDia, Bool.or_eq_true,
      Bool.and_eq_true, beq_iff_eq, decide_eq_true_eq, Bool.not_eq_false] at hc
    omega

theorem dev_char (c : Nat) (h : inDevBlock c = true) :
    isWordChar c = false ∧ toLowerCP c = c := by
  simp only [inDevBlock, Bool.and_eq_true, decide_eq_true_eq] at h
  refine ⟨?_, toLowerCP_fix c (by omega) (by omega) (by omega) (by omega)
    (by omega) (by omega)⟩
  by_contra hc
  simp only [isWordChar, Bool.or_eq_true, Bool.and_eq_true, beq_iff_eq,
    decide_eq_true_eq, Bool.not_eq_false] at hc
  omega

/-- On a string without word characters (once lowercased, and whose
    lowercasing is the identity) every tier of the transliteration matcher
    fails: its vocabulary, patterns and phonetic fragments all require ASCII
    word characters. -/
theorem translit_false_of_inert (s : Str) (hw : ∀ c ∈ s, isWordChar c = false)
    (hl : ∀ c ∈ s, toLowerCP c = c) : isTransliteratedHindi s = false := by
  have hls : lower s = s := lower_id s hl
  have hWordsAll : hindiWords.all (fun w => w.any isWordChar) = true := by decide
  have hSoundsAll : devSounds.all (fun w => w.any isWordChar) = true := by decide
  unfold isTransliteratedHindi
  rw [hls]
  have hv : hindiWords.any (fun w => isSubstr w s) = false := by
    rw [List.any_eq_false]
    intro w hwmem
    simp [substr_false_of_missing w s isWordChar (List.all_eq_true.mp hWordsAll w hwmem) hw]
  have hp : hindiPatternsHit s = false := by
    unfold hindiPatternsHit
    rw [no_word_no_runSuffix _ _ hw, no_word_no_runSuffix _ _ hw,
      no_word_no_runSuffix _ _ hw,
      scanLead_false_of_missing _ _ isWordChar (by decide) hw,
      scanLead_false_of_missing _ _ isWordChar (by decide) hw,
      scanLead_false_of_missing _ _ isWordChar (by decide) hw,
      scanLead_false_of_missing _ _ isWordChar (by decide) hw,
      scanLead_false_of_missing _ _ isWordChar (by decide) hw,
      scanLead_false_of_missing _ _ isWordChar (by decide) hw,
      scanPair_false_of_missing _ _ _ isWordChar (by decide) hw,
      scanPair_false_of_missing _ _ _ isWordChar (by decide) hw,
      scanPair_false_of_missing _ _ _ isWordChar (by decide) hw,
      scanPair_false_of_missing _ _ _ isWordChar (by decide) hw]
    rfl
  have hsnd : soundCount s = 0 := by
    unfold soundCount
    have hfilter : devSounds.filter (fun f => isSubstr f s) = [] := by
      rw [List.filter_eq_nil_iff]
      intro f hf
      simp [substr_false_of_missing f s isWordChar (List.all_eq_true.mp hSoundsAll f hf) hw]
    rw [hfilter]
    rfl
  rw [hv, hp]
  simp [hsnd]

/-- A whitespace-only string falls through every tier of the heuristic and
    lands on the English default. -/
theorem space_all_props (s : Str) (h : ∀ c ∈ s, isSpace c = true) :
    isTransliteratedHindi s = false ∧ heuristicLanguageDetection s = some langEn := by
  have hw : ∀ c ∈ s, isWordChar c = false := fun c hc => (space_char c (h c hc)).1
  have hl : ∀ c ∈ s, toLowerCP c = c := fun c hc => (space_char c (h c hc)).2.1
  have ht := translit_false_of_inert s hw hl
  have hls : lower s = s := lower_id s hl
  refine ⟨ht, ?_⟩
  have hDevL : s.any devLet = false := by
    rw [List.any_eq_false]; intro c hc; simp [(space_char c (h c hc)).2.2.1]
  have hDevD : s.any devDig = false := by
    rw [List.any_eq_false]; intro c hc; simp [(space_char c (h c hc)).2.2.2.1]
  have hArL : s.any arLet = false := by
    rw [List.any_eq_false]; intro c hc; simp [(space_char c (h c hc)).2.2.2.2.1]
  have hArD : s.any arDig = false := by
    rw [List.any_eq_false]; intro c hc; simp [(space_char c (h c hc)).2.2.2.2.2.1]
  have hCyL : s.any cyrLow = false := by
    rw [List.any_eq_false]; intro c hc; simp [(space_char c (h c hc)).2.2.2.2.2.2.1]
  have hCyU : s.any cyrUp = false := by
    rw [List.any_eq_false]; intro c hc; simp [(space_char c (h c hc)).2.2.2.2.2.2.2.1]
  have hJa : s.any jaCls = false := by
    rw [List.any_eq_false]; intro c hc; simp [(space_char c (h c hc)).2.2.2.2.2.2.2.2.1]
  have hKo : s.any koCls = false := by
    rw [List.any_eq_false]; intro c hc; simp [(space_char c (h c hc)).2.2.2.2.2.2.2.2.2.1]
  have hZh : s.any zhCls = false := by
    rw [List.any_eq_false]; intro c hc; simp [(space_char c (h c hc)).2.2.2.2.2.2.2.2.2.2.1]
  have hEs : s.any esDia = false := by
    rw [List.any_eq_false]; intro c hc; simp [(space_char c (h c hc)).2.2.2.2.2.2.2.2.2.2.2.1]
  have hFr : s.any frDia = false := by
    rw [List.any_eq_false]; intro c hc; simp [(space_char c (h c hc)).2.2.2.2.2.2.2.2.2.2.2.2.1]
  have hDe : s.any deDia = false := by
    rw [List.any_eq_false]; intro c hc; simp [(space_char c (h c hc)).2.2.2.2.2.2.2.2.2.2.2.2.2.1]
  have hIt : s.any itDia = false := by
    rw [List.any_eq_false]; intro c hc; simp [(space_char c (h c hc)).2.2.2.2.2.2.2.2.2.2.2.2.2.2.1]
  have hPt : s.any ptDia = false := by
    rw [List.any_eq_false]; intro c hc; simp [(space_char c (h c hc)).2.2.2.2.2.2.2.2.2.2.2.2.2.2.2]
  have hns : ∀ c ∈ s, (!isSpace c) = false := fun c hc => by simp [h c hc]
  have hWes : scanBounded esWords s = false :=
    scanB_false_of_missing esWords s (fun c => !isSpace c) (by decide) hns
  have hWfr : scanBounded frWords s = false :=
    scanB_false_of_missing frWords s (fun c => !isSpace c) (by decide) hns
  have hWde : scanBounded deWords s = false :=
    scanB_false_of_missing deWords s (fun c => !isSpace c) (by decide) hns
  have hWit : scanBounded itWords s = false :=
    scanB_false_of_missing itWords s (fun c => !isSpace c) (by decide) hns
  have hWpt : scanBounded ptWords s = false :=
    scanB_false_of_missing ptWords s (fun c => !isSpace c) (by decide) hns
  unfold heuristicLanguageDetection
  rw [hls]
  simp only [ht, hDevL, hDevD, hArL, hArD, hCyL, hCyU, hJa, hKo, hZh, hEs, hFr,
    hDe, hIt, hPt, hWes, hWfr, hWde, hWit, hWpt, Bool.or_self, Bool.or_false,
    if_false, Bool.false_eq_true, ite_false]
  decide

/- ------------------------------------------------------------------ -/
/- Claim theorems                                                      -/
/- ------------------------------------------------------------------ -/

def langAuto : Language := ⟨str "auto", str "Auto-detect"⟩
def langEs : Language := ⟨str "es", str "Spanish"⟩
def langFr : Language := ⟨str "fr", str "French"⟩
def langDe : Language := ⟨str "de", str "German"⟩
def langIt : Language := ⟨str "it", str "Italian"⟩
def langPt : Language := ⟨str "pt", str "Portuguese"⟩
def langRu : Language := ⟨str "ru", str "Russian"⟩
def langAr : Language := ⟨str "ar", str "Arabic"⟩
def langKo : Language := ⟨str "ko", str "Korean"⟩

/-- Claim C1: evaluation of the code at the failing input.  The literal
    input 你好世界 (CJK ideographs, no kana, no Hangul) is classified as
    Japanese, not Chinese, because the Japanese character class contains the
    whole ideograph range U+4E00 to U+9FAF, which makes the later Chinese
    branch unreachable; こんにちは世界 is classified as Japanese. -/
theorem C1_chinese_misclassified :
    heuristicLanguageDetection (str "你好世界") = some langJa ∧
    heuristicLanguageDetection (str "你好世界") ≠ some langZh ∧
    heuristicLanguageDetection (str "こんにちは世界") = some langJa :=
  ⟨by decide, by decide, by decide⟩

/-- Claim C2: the heuristic detection is total — on every input string it
    returns a `Language` of the catalog, so the non-null-asserted catalog
    lookup of every branch succeeds. -/
theorem C2_detection_total (s : Str) :
    ∃ l, heuristicLanguageDetection s = some l ∧ l ∈ languages := by
  unfold heuristicLanguageDetection
  by_cases h1 : isTransliteratedHindi s = true
  · rw [if_pos h1]; exact ⟨langHi, by decide, by decide⟩
  rw [if_neg h1]
  by_cases h2 : (s.any devLet || s.any devDig) = true
  · rw [if_pos h2]; exact ⟨langHi, by decide, by decide⟩
  rw [if_neg h2]
  by_cases h3 : (s.any arLet || s.any arDig) = true
  · rw [if_pos h3]; exact ⟨langAr, by decide, by decide⟩
  rw [if_neg h3]
  by_cases h4 : ((lower s).any cyrLow || s.any cyrUp) = true
  · rw [if_pos h4]; exact ⟨langRu, by decide, by decide⟩
  rw [if_neg h4]
  by_cases h5 : s.any jaCls = true
  · rw [if_pos h5]; exact ⟨langJa, by decide, by decide⟩
  rw [if_neg h5]
  by_cases h6 : s.any koCls = true
  · rw [if_pos h6]; exact ⟨langKo, by decide, by decide⟩
  rw [if_neg h6]
  by_cases h7 : s.any zhCls = true
  · rw [if_pos h7]; exact ⟨langZh, by decide, by decide⟩
  rw [if_neg h7]
  by_cases h8 : ((lower s).any esDia || scanBounded esWords (lower s)) = true
  · rw [if_pos h8]; exact ⟨langEs, by decide, by decide⟩
  rw [if_neg h8]
  by_cases h9 : ((lower s).any frDia || scanBounded frWords (lower s)) = true
  · rw [if_pos h9]; exact ⟨langFr, by decide, by decide⟩
  rw [if_neg h9]
  by_cases h10 : ((lower s).any deDia || scanBounded deWords (lower s)) = true
  · rw [if_pos h10]; exact ⟨langDe, by decide, by decide⟩
  rw [if_neg h10]
  by_cases h11 : ((lower s).any itDia || scanBounded itWords (lower s)) = true
  · rw [if_pos h11]; exact ⟨langIt, by decide, by decide⟩
  rw [if_neg h11]
  by_cases h12 : ((lower s).any ptDia || scanBounded ptWords (lower s)) = true
  · rw [if_pos h12]; exact ⟨langPt, by decide, by decide⟩
  rw [if_neg h12]
  exact ⟨langEn, by decide, by decide⟩

/-- Claim C3, counterexample: at the input zzz the heuristic lands on the
    English default, the English word check fails, the remote API is
    consulted, and for every inconclusive remote outcome `detectLanguage`
    still resolves to the guessed default language — no could-not-detect
    outcome exists in any return path of the function. -/
theorem C3_reports_guess_not_failure :
    heuristicLanguageDetection (str "zzz") = some langEn ∧
    isLikelyEnglish (str "zzz") = false ∧
    (detectLanguageRun (str "zzz") RemoteOutcome.notOk).2 = true ∧
    detectLanguage (str "zzz") RemoteOutcome.notOk = some langEn ∧
    detectLanguage (str "zzz") RemoteOutcome.okBad = some langEn ∧
    detectLanguage (str "zzz") RemoteOutcome.threw = some langEn :=
  ⟨by decide, by decide, by decide, by decide, by decide, by decide⟩

/-- Claim C3, amended: when the heuristic result is the English default,
    the English word check fails and the remote call is inconclusive,
    `detectLanguage` returns the heuristic default-English result (it never
    reports the detection as failed). -/
theorem C3_inconclusive_returns_default (s : Str) (r : RemoteOutcome)
    (h1 : heuristicLanguageDetection s = some langEn)
    (h2 : isLikelyEnglish s = false) :
    detectLanguage s r = some langEn := by
  unfold detectLanguage detectLanguageRun
  rw [h1]
  have hc : (langEn.code != str "en") = false := by decide
  dsimp only
  rw [hc, h2]
  cases r <;> simp [h1]

theorem C3_inconclusive_returns_default_witness :
    heuristicLanguageDetection (str "zzz") = some langEn ∧
    isLikelyEnglish (str "zzz") = false ∧
    detectLanguage (str "zzz") RemoteOutcome.notOk = some langEn :=
  ⟨by decide, by decide,
   C3_inconclusive_returns_default (str "zzz") RemoteOutcome.notOk (by decide) (by decide)⟩

/-- Claim C4: the catalog has exactly one entry for each of the thirteen
    required codes, pairwise distinct codes overall, and a display name on
    every entry. -/
theorem C4_catalog_complete :
    (requiredCodes.all fun c => (languages.filter fun l => l.code == c).length == 1) = true ∧
    (languages.map Language.code).Nodup ∧
    (languages.all fun l => !(l.name.isEmpty)) = true :=
  ⟨by decide, by decide, by decide⟩

/-- Claim C5, counterexample: the single code point U+093E (a Devanagari
    vowel sign, inside the Devanagari block but outside the letter range
    अ-ह and the digit range ०-९) is a non-empty pure-Devanagari string on
    which the heuristic returns English, not Hindi. -/
theorem C5_vowel_sign_not_hindi :
    ([0x93E] : Str).all inDevBlock = true ∧ ([0x93E] : Str) ≠ [] ∧
    heuristicLanguageDetection [0x93E] = some langEn ∧
    heuristicLanguageDetection [0x93E] ≠ some langHi :=
  ⟨by decide, by decide, by decide, by decide⟩

/-- Claim C5, amended: every string of Devanagari-block code points that
    contains at least one letter in अ-ह or digit in ०-९ is classified
    Hindi (the transliteration tier cannot fire on pure Devanagari text). -/
theorem C5_devanagari_letters_hindi (s : Str)
    (hblock : s.all inDevBlock = true)
    (hhit : (s.any devLet || s.any devDig) = true) :
    heuristicLanguageDetection s = some langHi := by
  have hmem := List.all_eq_true.mp hblock
  have hw : ∀ c ∈ s, isWordChar c = false := fun c hc => (dev_char c (hmem c hc)).1
  have hl : ∀ c ∈ s, toLowerCP c = c := fun c hc => (dev_char c (hmem c hc)).2
  have ht := translit_false_of_inert s hw hl
  unfold heuristicLanguageDetection
  simp only [ht, hhit, Bool.false_eq_true, if_false, if_true]
  decide

theorem C5_devanagari_letters_hindi_witness :
    heuristicLanguageDetection [0x905] = some langHi :=
  C5_devanagari_letters_hindi [0x905] (by decide) (by decide)

/-- Claim C6: whenever the heuristic result's code differs from the
    default en, `detectLanguage` returns exactly the heuristic result and
    the remote detection API is not consulted. -/
theorem C6_nondefault_trusted (s : Str) (r : RemoteOutcome) (h : Language)
    (hf : heuristicLanguageDetection s = some h) (hne : h.code ≠ str "en") :
    detectLanguageRun s r = (some h, false) := by
  unfold detectLanguageRun
  rw [hf]
  have hc : (h.code != str "en") = true := bne_iff_ne.mpr hne
  dsimp only
  rw [hc]
  simp

theorem C6_nondefault_trusted_witness :
    detectLanguageRun (str "namaste") RemoteOutcome.notOk = (some langHi, false) :=
  C6_nondefault_trusted (str "namaste") RemoteOutcome.notOk langHi (by decide) (by decide)

/-- Claim C7: a positive transliteration match decides the classification
    immediately — the script and function-word tiers are never reached. -/
theorem C7_translit_preempts (s : Str) (h : isTransliteratedHindi s = true) :
    heuristicLanguageDetection s = some langHi := by
  unfold heuristicLanguageDetection
  simp only [h, if_true]
  decide

theorem C7_translit_preempts_witness :
    (lower (str "namaste señor")).any esDia = true ∧
    scanBounded frWords (lower (str "le namaste")) = true ∧
    heuristicLanguageDetection (str "namaste señor") = some langHi ∧
    heuristicLanguageDetection (str "le namaste") = some langHi :=
  ⟨by decide, by decide, C7_translit_preempts (str "namaste señor") (by decide),
   C7_translit_preempts (str "le namaste") (by decide)⟩

/-- Claim C8: with no vocabulary hit and no pattern hit, the
    transliteration matcher is exactly the test that at least two distinct
    phonetic fragments occur in the lowercased text. -/
theorem C8_phonetic_threshold (s : Str)
    (hv : hindiWords.all (fun w => !(isSubstr w (lower s))) = true)
    (hp : hindiPatternsHit (lower s) = false) :
    isTransliteratedHindi s = decide (2 ≤ soundCount (lower s)) := by
  unfold isTransliteratedHindi
  rw [any_false_of_all_not hindiWords _ hv, hp]
  simp

theorem C8_phonetic_threshold_witness :
    isTransliteratedHindi (str "bhch") = true ∧
    isTransliteratedHindi (str "bh") = false :=
  ⟨(C8_phonetic_threshold (str "bhch") (by decide) (by decide)).trans (by decide),
   (C8_phonetic_threshold (str "bh") (by decide) (by decide)).trans (by decide)⟩

/-- Claim C9: on the empty string and every whitespace-only string the
    transliteration matcher returns false and the heuristic pipeline falls
    through every tier to the English default. -/
theorem C9_whitespace_default (s : Str) (h : s.all isSpace = true) :
    isTransliteratedHindi s = false ∧ heuristicLanguageDetection s = some langEn :=
  space_all_props s (List.all_eq_true.mp h)

theorem C9_whitespace_default_witness :
    (isTransliteratedHindi [] = false ∧ heuristicLanguageDetection [] = some langEn) ∧
    (isTransliteratedHindi [32] = false ∧ heuristicLanguageDetection [32] = some langEn) :=
  ⟨C9_whitespace_default [] (by decide), C9_whitespace_default [32] (by decide)⟩

/-- Claim C10: on every input and every remote outcome — heuristic trusted,
    OK response with either payload shape, non-OK response, or thrown
    error — `detectLanguage` resolves to the value of the pure heuristic,
    so the remote answer never changes the result. -/
theorem C10_remote_never_changes_result (s : Str) (r : RemoteOutcome) :
    detectLanguage s r = heuristicLanguageDetection s := by
  unfold detectLanguage detectLanguageRun
  cases hf : heuristicLanguageDetection s with
  | none => rfl
  | some h =>
    dsimp only
    split
    · rfl
    · cases r <;> simp

end Translator
